import Mathlib

/-!
Verification of the rewrite-validation pipeline of `app/llm.py`
(time-entry narrative rewriting service, V2).

The pipeline is shallowly embedded: each Python function of the module is
translated into a Lean definition of the same name (leading underscores
kept where the source has them).  Python strings are Lean `String`s
(lists of characters); the implicit character operations of Python
(`str.strip`, `str.upper` on one character, …) are modelled on the ASCII
range, which covers every character the constants of the module itself and the
JSON surface syntax use.  Fallible Python operations (raising exceptions)
return `Except String α`; an uncaught exception of the source corresponds
to an `Except.error` value of the embedding.
-/

/-! ## Python character and string primitives -/

/-- Characters removed by Python `str.strip()` (ASCII whitespace:
space, tab, line feed, carriage return, vertical tab, form feed). -/
def pyIsSpace (c : Char) : Bool :=
  c = ' ' || c = '\t' || c = '\n' || c = '\r' || c = '\x0b' || c = '\x0c'

/-- Drop trailing characters satisfying `p`. -/
def dropTrailing (p : Char → Bool) (l : List Char) : List Char :=
  (l.reverse.dropWhile p).reverse

/-- Model of Python `str.strip()` (no argument): remove leading and
trailing whitespace. -/
def pyStrip (s : String) : String :=
  ⟨dropTrailing pyIsSpace (s.data.dropWhile pyIsSpace)⟩

/-- Model of Python upper-casing of one character (`str.upper` restricted
to a single character), on the ASCII range; other characters unchanged. -/
def pyUpperChar (c : Char) : Char :=
  if c = 'a' then 'A' else if c = 'b' then 'B' else if c = 'c' then 'C'
  else if c = 'd' then 'D' else if c = 'e' then 'E' else if c = 'f' then 'F'
  else if c = 'g' then 'G' else if c = 'h' then 'H' else if c = 'i' then 'I'
  else if c = 'j' then 'J' else if c = 'k' then 'K' else if c = 'l' then 'L'
  else if c = 'm' then 'M' else if c = 'n' then 'N' else if c = 'o' then 'O'
  else if c = 'p' then 'P' else if c = 'q' then 'Q' else if c = 'r' then 'R'
  else if c = 's' then 'S' else if c = 't' then 'T' else if c = 'u' then 'U'
  else if c = 'v' then 'V' else if c = 'w' then 'W' else if c = 'x' then 'X'
  else if c = 'y' then 'Y' else if c = 'z' then 'Z' else c

/-- Model of Python lower-casing of one character (`str.lower` restricted
to a single character), on the ASCII range; other characters unchanged. -/
def pyLowerChar (c : Char) : Char :=
  if c = 'A' then 'a' else if c = 'B' then 'b' else if c = 'C' then 'c'
  else if c = 'D' then 'd' else if c = 'E' then 'e' else if c = 'F' then 'f'
  else if c = 'G' then 'g' else if c = 'H' then 'h' else if c = 'I' then 'i'
  else if c = 'J' then 'j' else if c = 'K' then 'k' else if c = 'L' then 'l'
  else if c = 'M' then 'm' else if c = 'N' then 'n' else if c = 'O' then 'o'
  else if c = 'P' then 'p' else if c = 'Q' then 'q' else if c = 'R' then 'r'
  else if c = 'S' then 's' else if c = 'T' then 't' else if c = 'U' then 'u'
  else if c = 'V' then 'v' else if c = 'W' then 'w' else if c = 'X' then 'x'
  else if c = 'Y' then 'y' else if c = 'Z' then 'z' else c

/-- Model of Python `str.lower()`. -/
def pyLower (s : String) : String := ⟨s.data.map pyLowerChar⟩

/-- Model of Python `str.endswith(t)`. -/
def pyEndsWith (s t : String) : Bool := t.data.isSuffixOf s.data

/-! ## Tokenisation (`_tokenize`, llm.py lines 27-29)

Python tokenises with `re.findall(r"\b\w+\b", text.lower())`, whose
matches are exactly the maximal runs of word characters. -/

/-- A regex word character (`\w`) on the ASCII range:
letters, digits, underscore. -/
def isWordChar (c : Char) : Bool := c.isAlphanum || c = '_'

/-- The longest leading run of word characters, and the rest. -/
def takeRun : List Char → List Char × List Char
  | [] => ([], [])
  | c :: cs =>
    if isWordChar c then
      let p := takeRun cs
      (c :: p.1, p.2)
    else ([], c :: cs)

/-- Maximal runs of word characters of a character list (fuelled
recursion; fuel at least the list length is always sufficient). -/
def wordRuns : Nat → List Char → List (List Char)
  | 0, _ => []
  | _ + 1, [] => []
  | fuel + 1, c :: cs =>
    if isWordChar c then
      let p := takeRun cs
      (c :: p.1) :: wordRuns fuel p.2
    else
      wordRuns fuel cs

/-- Model of `re.findall(r"\b\w+\b", text)`: the maximal runs of word
characters of `text`, in order. -/
def findallWords (text : String) : List String :=
  (wordRuns text.data.length text.data).map String.mk

/-- Constant `STOPWORDS` (llm.py lines 12-17), as a list; only membership is ever
used, so the order is irrelevant. -/
def STOPWORDS : List String :=
  ["the", "a", "an", "and", "or", "but", "of", "to", "in", "on", "for", "with",
   "by", "at", "from", "as", "is", "are", "was", "were", "be", "been", "being",
   "this", "that", "these", "those", "it", "its", "into", "about",
   "regarding", "related", "re", "re:"]

/-- Function `_tokenize` (llm.py lines 27-29): lower-case, split into word-character
runs, drop stopwords. -/
def _tokenize (text : String) : List String :=
  (findallWords (pyLower text)).filter (fun w => !STOPWORDS.contains w)

/-! ## Drift detection (`_too_much_drift`, llm.py lines 32-62) -/

/-- Constant `MUST_PRESERVE_TOKENS` (llm.py line 20). -/
def MUST_PRESERVE_TOKENS : List String := ["farts", "butt", "toilet", "poop", "nsfw"]

/-- Constant `DRIFT_MIN_OVERLAP` (llm.py line 24).  The source compares IEEE-754
doubles; the rational model agrees with the double computation for every
token-set size below 10^13, far beyond any feasible input. -/
def DRIFT_MIN_OVERLAP : ℚ := 0.30

/-- The deduplicated token set of a string (`set(_tokenize(s))`), as a
duplicate-free list; `length` is the cardinality of the set. -/
def tokenSet (s : String) : List String := (_tokenize s).dedup

/-- Quantity `missing = o_set - r_set` (llm.py line 50): tokens of the token set of the original absent from the token set of the rewrite. -/
def missingTokens (original rewritten : String) : List String :=
  (tokenSet original).filter (fun t => !(_tokenize rewritten).contains t)

/-- Quantity `overlap_ratio = 1.0 - len(missing) / len(o_set)` (llm.py line 51),
as a rational. -/
def driftOverlap (original rewritten : String) : ℚ :=
  1 - ((missingTokens original rewritten).length : ℚ) / ((tokenSet original).length : ℚ)

/-- Function `_too_much_drift` (llm.py lines 32-62): flag the rewrite when the
token set of the original is non-empty and either the overlap ratio is below
`DRIFT_MIN_OVERLAP` or some must-preserve token of the original is
missing from the rewrite. -/
def _too_much_drift (original rewritten : String) : Bool :=
  if (tokenSet original).isEmpty then false
  else if driftOverlap original rewritten < DRIFT_MIN_OVERLAP then true
  else if (tokenSet original).any
      (fun t => MUST_PRESERVE_TOKENS.contains t
        && (missingTokens original rewritten).contains t) then true
  else false

/-! ### A kernel-computable form of the drift decision

`Rat` normalisation does not reduce inside the kernel, so concrete
evaluations go through an integer reformulation of the threshold test,
proved equal to `_too_much_drift` below. -/

/-- The drift decision with the threshold test `overlap < 3/10` restated
over naturals: `10 * (n - m) < 3 * n` where `n = |O|` and `m = |missing|`
(equivalent because `missing ⊆ O`). -/
def driftFlag (original rewritten : String) : Bool :=
  let n := (tokenSet original).length
  let m := (missingTokens original rewritten).length
  if n = 0 then false
  else if 10 * (n - m) < 3 * n then true
  else if (tokenSet original).any
      (fun t => MUST_PRESERVE_TOKENS.contains t
        && (missingTokens original rewritten).contains t) then true
  else false

theorem missing_length_le (o r : String) :
    (missingTokens o r).length ≤ (tokenSet o).length :=
  List.length_filter_le _ _

theorem drift_lt_iff (o r : String) (hn : (tokenSet o).length ≠ 0) :
    (driftOverlap o r < DRIFT_MIN_OVERLAP) ↔
      10 * ((tokenSet o).length - (missingTokens o r).length)
        < 3 * (tokenSet o).length := by
  have hmn := missing_length_le o r
  unfold driftOverlap DRIFT_MIN_OVERLAP
  set n := (tokenSet o).length with hndef
  set m := (missingTokens o r).length with hmdef
  have hq : (0 : ℚ) < (n : ℚ) := by exact_mod_cast Nat.pos_of_ne_zero hn
  rw [show ((0.30 : ℚ)) = 3 / 10 by norm_num]
  rw [sub_lt_iff_lt_add]
  rw [show (3 / 10 : ℚ) + (m : ℚ) / (n : ℚ) = (3 * n + 10 * m) / (10 * n) by
    field_simp; ring]
  rw [lt_div_iff₀ (by positivity), one_mul]
  constructor
  · intro h
    have h7 : 7 * n < 10 * m := by
      exact_mod_cast (by push_cast; nlinarith :
        ((7 * n : ℕ) : ℚ) < ((10 * m : ℕ) : ℚ))
    omega
  · intro h
    have h7 : 7 * n < 10 * m := by omega
    have hq2 : ((7 * n : ℕ) : ℚ) < ((10 * m : ℕ) : ℚ) := by exact_mod_cast h7
    push_cast at hq2
    nlinarith

theorem too_much_drift_eq_flag (o r : String) :
    _too_much_drift o r = driftFlag o r := by
  unfold _too_much_drift driftFlag
  by_cases he : (tokenSet o).isEmpty
  · have h0 : (tokenSet o).length = 0 := by
      simp [List.isEmpty_iff.mp he]
    simp [he, h0]
  · have hn : (tokenSet o).length ≠ 0 := by
      simpa [List.isEmpty_iff_length_eq_zero] using he
    simp only [he, Bool.false_eq_true, if_false, if_neg hn]
    simp only [drift_lt_iff o r hn]

/-! ## Fallback behaviour (`_simple_fallback_rewrite`, llm.py lines 96-115) -/

/-- Schema `RewriteResponse` (schemas.py): the four-field result returned to the
caller. -/
structure RewriteResponse where
  standard : String
  client_compliant : String
  audit_safe : String
  notes : String
deriving DecidableEq, Repr

/-- The fixed explanatory note of the fallback (llm.py lines 105-108). -/
def fallbackNote : String :=
  "LLM rewrite was rejected due to potential semantic change or invalid output. " ++
  "Using a minimal cleaned version that preserves the original wording."

/-- The default phrase substituted for an empty original (llm.py line 100). -/
def defaultPhrase : String := "Performed legal services."

/-- The minimally-cleaned text of the fallback (llm.py lines 100-103):
trim, substitute the default phrase when empty, upper-case the first
character (`text[0].upper() + text[1:]`, an `IndexError` on an empty
string, modelled as `Except.error`), and append a final period when
missing. -/
def fallbackText (original : String) : Except String String :=
  let text := if (pyStrip original).data.isEmpty then defaultPhrase else pyStrip original
  match text.data with
  | [] => .error "IndexError: string index out of range"
  | c :: cs =>
    let capped : String := ⟨pyUpperChar c :: cs⟩
    .ok (if pyEndsWith capped "." then capped else capped ++ ".")

/-- Function `_simple_fallback_rewrite` (llm.py lines 96-115): the deterministic
fallback result, all three rewrite fields the minimally-cleaned text and
`notes` the fixed explanatory message. -/
def _simple_fallback_rewrite (original : String) : Except String RewriteResponse :=
  match fallbackText original with
  | .error e => .error e
  | .ok text =>
    .ok { standard := text, client_compliant := text,
          audit_safe := text, notes := fallbackNote }

/-! ## JSON values and parsing (`json.loads`)

The values `json.loads` can return: the schema stage of the pipeline receives
one of these, and its behaviour differs sharply between dicts, lists,
strings, and non-container values. -/

/-- A parsed JSON document, as the Python `json.loads` materialises it.
Objects keep their key/value pairs in order; on duplicate keys the last
occurrence is the one `json.loads` keeps, so lookups below take the last
match. -/
inductive PyVal where
  | str : String → PyVal
  | num : ℚ → PyVal
  | bool : Bool → PyVal
  | null : PyVal
  | list : List PyVal → PyVal
  | dict : List (String × PyVal) → PyVal
deriving Repr

/-- JSON inter-token whitespace (space, tab, line feed, carriage return). -/
def jsonIsWs (c : Char) : Bool :=
  c = ' ' || c = '\t' || c = '\n' || c = '\r'

def skipWs (l : List Char) : List Char := l.dropWhile jsonIsWs

def hexVal (c : Char) : Option Nat :=
  if c.isDigit then some (c.toNat - 48)
  else if 'a' ≤ c && c ≤ 'f' then some (c.toNat - 87)
  else if 'A' ≤ c && c ≤ 'F' then some (c.toNat - 55)
  else none

/-- Body of a JSON string literal after the opening quote: the decoded
characters and the remaining input after the closing quote.  Escapes are
decoded; unescaped control characters are rejected as in strict-mode
`json.loads`.  (Astral-plane `\u` surrogate pairs are not recombined;
nothing in this development depends on them.) -/
def parseStrBody : List Char → Except String (List Char × List Char)
  | [] => .error "Unterminated string"
  | '\"' :: rest => .ok ([], rest)
  | '\\' :: 'u' :: h1 :: h2 :: h3 :: h4 :: rest =>
    match hexVal h1, hexVal h2, hexVal h3, hexVal h4 with
    | some a, some b, some c, some d =>
      match parseStrBody rest with
      | .ok (s, r) => .ok (Char.ofNat (((a * 16 + b) * 16 + c) * 16 + d) :: s, r)
      | .error e => .error e
    | _, _, _, _ => .error "Invalid hex escape"
  | '\\' :: e :: rest =>
    match
      (if e = '\"' then some '\"' else if e = '\\' then some '\\'
       else if e = '/' then some '/' else if e = 'b' then some '\x08'
       else if e = 'f' then some '\x0c' else if e = 'n' then some '\n'
       else if e = 'r' then some '\r' else if e = 't' then some '\t'
       else none) with
    | some c =>
      match parseStrBody rest with
      | .ok (s, r) => .ok (c :: s, r)
      | .error e => .error e
    | none => .error "Invalid escape"
  | c :: rest =>
    if c.toNat < 32 then .error "Invalid control character"
    else
      match parseStrBody rest with
      | .ok (s, r) => .ok (c :: s, r)
      | .error e => .error e

def digitsToNat (ds : List Char) : Nat :=
  ds.foldl (fun a c => 10 * a + (c.toNat - 48)) 0

/-- A JSON number starting at the head of the input (grammar
`-? (0 | [1-9][0-9]*) frac? exp?`), as a rational, with the rest of the
input. -/
def parseNumber (l : List Char) : Except String (ℚ × List Char) :=
  let (neg, l1) := match l with
    | '-' :: r => (true, r)
    | _ => (false, l)
  let intDigits := l1.takeWhile Char.isDigit
  let l2 := l1.dropWhile Char.isDigit
  if intDigits.isEmpty then .error "Expecting value"
  else if intDigits.length > 1 && intDigits.headD '0' = '0' then
    .error "Expecting value"
  else
    let ipart : ℚ := (digitsToNat intDigits : ℚ)
    let (fpart, l3) : ℚ × List Char := match l2 with
      | '.' :: r =>
        let fd := r.takeWhile Char.isDigit
        ((digitsToNat fd : ℚ) / (10 : ℚ) ^ fd.length, r.dropWhile Char.isDigit)
      | _ => (0, l2)
    let fracBad := match l2 with
      | '.' :: r => (r.takeWhile Char.isDigit).isEmpty
      | _ => false
    let (expBad, epart, l4) : Bool × ℤ × List Char := match l3 with
      | 'e' :: r | 'E' :: r =>
        let (eneg, r1) := match r with
          | '-' :: r2 => (true, r2)
          | '+' :: r2 => (false, r2)
          | _ => (false, r)
        let ed := r1.takeWhile Char.isDigit
        (ed.isEmpty, (if eneg then -(digitsToNat ed : ℤ) else (digitsToNat ed : ℤ)),
          r1.dropWhile Char.isDigit)
      | _ => (false, 0, l3)
    if fracBad || expBad then .error "Expecting value"
    else
      let mag : ℚ := (ipart + fpart) * (10 : ℚ) ^ epart
      .ok ((if neg then -mag else mag), l4)

mutual

/-- One JSON value starting at the head of the input (leading whitespace
allowed), with the rest of the input.  Fuelled mutual recursion; fuel at
least the input length is always sufficient, since every recursive call
first consumes at least one character. -/
def parseVal : Nat → List Char → Except String (PyVal × List Char)
  | 0, _ => .error "Input too deeply nested"
  | fuel + 1, l =>
    match skipWs l with
    | [] => .error "Expecting value"
    | c :: rest =>
      if c = '\x7b' then
        match skipWs rest with
        | '\x7d' :: r2 => .ok (.dict [], r2)
        | r2 => match parseMembers fuel r2 with
          | .ok (kvs, r3) => .ok (.dict kvs, r3)
          | .error e => .error e
      else if c = '[' then
        match skipWs rest with
        | ']' :: r2 => .ok (.list [], r2)
        | r2 => match parseItems fuel r2 with
          | .ok (vs, r3) => .ok (.list vs, r3)
          | .error e => .error e
      else if c = '\"' then
        match parseStrBody rest with
        | .ok (s, r2) => .ok (.str ⟨s⟩, r2)
        | .error e => .error e
      else if c = 't' then
        match rest with
        | 'r' :: 'u' :: 'e' :: r2 => .ok (.bool true, r2)
        | _ => .error "Expecting value"
      else if c = 'f' then
        match rest with
        | 'a' :: 'l' :: 's' :: 'e' :: r2 => .ok (.bool false, r2)
        | _ => .error "Expecting value"
      else if c = 'n' then
        match rest with
        | 'u' :: 'l' :: 'l' :: r2 => .ok (.null, r2)
        | _ => .error "Expecting value"
      else
        match parseNumber (c :: rest) with
        | .ok (q, r2) => .ok (.num q, r2)
        | .error e => .error e

/-- The members of a JSON object, positioned at the first key (no leading
`\x7b`, closing `\x7d` consumed). -/
def parseMembers : Nat → List Char → Except String (List (String × PyVal) × List Char)
  | 0, _ => .error "Input too deeply nested"
  | fuel + 1, l =>
    match skipWs l with
    | '\"' :: rest =>
      match parseStrBody rest with
      | .ok (k, r1) =>
        match skipWs r1 with
        | ':' :: r2 =>
          match parseVal fuel r2 with
          | .ok (v, r3) =>
            (match skipWs r3 with
             | ',' :: r4 =>
               match parseMembers fuel r4 with
               | .ok (kvs, r5) => .ok ((⟨k⟩, v) :: kvs, r5)
               | .error e => .error e
             | '\x7d' :: r4 => .ok ([(⟨k⟩, v)], r4)
             | _ => .error "Expecting comma or end of object")
          | .error e => .error e
        | _ => .error "Expecting colon"
      | .error e => .error e
    | _ => .error "Expecting property name"

/-- The items of a JSON array, positioned at the first item (no leading
`[`, closing `]` consumed). -/
def parseItems : Nat → List Char → Except String (List PyVal × List Char)
  | 0, _ => .error "Input too deeply nested"
  | fuel + 1, l =>
    match parseVal fuel l with
    | .ok (v, r1) =>
      (match skipWs r1 with
       | ',' :: r2 =>
         match parseItems fuel r2 with
         | .ok (vs, r3) => .ok (v :: vs, r3)
         | .error e => .error e
       | ']' :: r2 => .ok ([v], r2)
       | _ => .error "Expecting comma or end of array")
    | .error e => .error e

end

/-- Model of Python `json.loads` on standard JSON documents: parse one
value, allow surrounding whitespace, reject trailing input.  (The
non-standard extensions `NaN` and `Infinity` accepted by `json.loads`
are not modelled; nothing in this development depends on them.) -/
def json_loads (s : String) : Except String PyVal :=
  match parseVal (s.data.length + 1) s.data with
  | .ok (v, rest) =>
    if (skipWs rest).isEmpty then .ok v else .error "Extra data"
  | .error e => .error e

/-! ## `_extract_json` (llm.py lines 118-135) -/

/-- llm.py lines 129-132: `start = text.find("\x7b")`,
`end = text.rfind("\x7d")`, and, when both exist and `end > start`, the
slice `text[start : end + 1]`.  `none` models the `-1`/failed-condition
case. -/
def sliceCandidate (t : String) : Option String :=
  match t.data.findIdx? (· = '\x7b'), t.data.reverse.findIdx? (· = '\x7d') with
  | some s, some ri =>
    let e := t.data.length - 1 - ri
    if e > s then some ⟨(t.data.drop s).take (e + 1 - s)⟩
    else none
  | _, _ => none

/-- Function `_extract_json`: strip the text and try to parse it whole; on failure
slice from the first `\x7b` to the last `\x7d` (inclusive, and only when
the latter comes after the former) and parse the slice; otherwise raise
`ValueError`.  A parse failure of the slice propagates, exactly as the
unguarded second `json.loads` call of the source does. -/
def _extract_json (text : String) : Except String PyVal :=
  let t := pyStrip text
  match json_loads t with
  | .ok v => .ok v
  | .error _ =>
    match sliceCandidate t with
    | some snippet => json_loads snippet
    | none => .error "Could not parse JSON from model output"

/-! ## Python container operations used by the schema stage

`call_ollama` applies `in`, `[...]` and `.get` to whatever `json.loads`
returned; on non-container values these raise `TypeError` or
`AttributeError`, which the source does not catch. -/

/-- Whether the second list occurs at the head of the first. -/
def listStartsWith : List Char → List Char → Bool
  | _, [] => true
  | [], _ :: _ => false
  | c :: cs, d :: ds => c = d && listStartsWith cs ds

/-- Whether the second list occurs contiguously anywhere in the first
(Python substring membership `needle in hay`). -/
def listHasInfix : List Char → List Char → Bool
  | [], needle => needle.isEmpty
  | c :: cs, needle => listStartsWith (c :: cs) needle || listHasInfix cs needle

/-- Membership `k in v` for a string key: key membership for dicts, element
membership for lists, substring test for strings, `TypeError` otherwise. -/
def pyContains (v : PyVal) (k : String) : Except String Bool :=
  match v with
  | .dict kvs => .ok (kvs.any (fun p => p.1 == k))
  | .list xs => .ok (xs.any (fun x => match x with | .str s => s == k | _ => false))
  | .str s => .ok (listHasInfix s.data k.data)
  | _ => .error "TypeError: argument is not iterable"

/-- The value of the last binding of `k` (Python dicts keep one binding
per key; `json.loads` keeps the last). -/
def lookupLast (kvs : List (String × PyVal)) (k : String) : Option PyVal :=
  ((kvs.filter (fun p => p.1 == k)).getLast?).map (fun p => p.2)

/-- Indexing `v[k]` for a string key: dict lookup (`KeyError` when absent);
`TypeError` on every other value, string indices being integers. -/
def pyIndex (v : PyVal) (k : String) : Except String PyVal :=
  match v with
  | .dict kvs =>
    match lookupLast kvs k with
    | some x => .ok x
    | none => .error "KeyError"
  | _ => .error "TypeError: indices must be integers"

/-- Lookup `v.get(k, d)`: dict lookup with default; `AttributeError` on every
other value. -/
def pyGetDefault (v : PyVal) (k : String) (d : PyVal) : Except String PyVal :=
  match v with
  | .dict kvs => .ok ((lookupLast kvs k).getD d)
  | _ => .error "AttributeError: no attribute get"

/-- Test `isinstance(v, str)`. -/
def isStr : PyVal → Bool
  | .str _ => true
  | _ => false

/-- Model of Python `str(v)`.  On a string it is the identity — the only
case the own guard of the pipeline (`if not isinstance(notes, str)`) makes
reachable with a value the result depends on; the rendering of the other
cases is simplified (no theorem below depends on it). -/
def pyStr : PyVal → String
  | .str s => s
  | .bool true => "True"
  | .bool false => "False"
  | .null => "None"
  | .num q => if q.den = 1 then toString q.num else toString q
  | .list _ => "[...]"
  | .dict _ => "\x7b...\x7d"

/-! ## The orchestrator (`call_ollama`, llm.py lines 140-202) -/

/-- One iteration of the schema loop (llm.py lines 181-183) for one key:
`ok false` means the key is absent or its value is not a string (the
source returns the fallback); `error` models an uncaught `TypeError`
from `in` or `[...]` on a non-container. -/
def schemaKeyOk (parsed : PyVal) (key : String) : Except String Bool :=
  match pyContains parsed key with
  | .error e => .error e
  | .ok false => .ok false
  | .ok true =>
    match pyIndex parsed key with
    | .error e => .error e
    | .ok v => .ok (isStr v)

/-- The whole schema loop over `standard`, `client_compliant`,
`audit_safe`, in source order, stopping at the first failure. -/
def schemaStage (parsed : PyVal) : Except String Bool :=
  match schemaKeyOk parsed "standard" with
  | .error e => .error e
  | .ok false => .ok false
  | .ok true =>
    match schemaKeyOk parsed "client_compliant" with
    | .error e => .error e
    | .ok false => .ok false
    | .ok true => schemaKeyOk parsed "audit_safe"

/-- llm.py lines 180-202: the part of `call_ollama` that runs on a
successfully parsed model output: schema stage, notes extraction and
coercion, trimming, drift stage, final result. -/
def validate_parsed (original : String) (parsed : PyVal) : Except String RewriteResponse :=
  match schemaStage parsed with
  | .error e => .error e
  | .ok false => _simple_fallback_rewrite original
  | .ok true =>
    match pyGetDefault parsed "notes" (.str "") with
    | .error e => .error e
    | .ok notesVal =>
      let notes := pyStr notesVal
      match pyIndex parsed "standard", pyIndex parsed "client_compliant",
            pyIndex parsed "audit_safe" with
      | .ok (.str std), .ok (.str cc), .ok (.str aud) =>
        let standard := pyStrip std
        if _too_much_drift original standard then
          _simple_fallback_rewrite original
        else
          .ok { standard := standard, client_compliant := pyStrip cc,
                audit_safe := pyStrip aud, notes := pyStrip notes }
      | _, _, _ => .error "unreachable: schema stage passed"

/-- Function `call_ollama` (llm.py lines 140-202).  Arguments `hours` and `rules` only shape
the prompt sent to the model; the network exchange itself is abstracted
into `net`: `none` models an exception inside the try-block (lines
157-172, network or HTTP error — caught, fallback), `some raw` the
`response` text the model returned. -/
def call_ollama (original : String) (hours : ℚ)
    (rules : Option (List (String × PyVal))) (net : Option String) :
    Except String RewriteResponse :=
  match net with
  | none => _simple_fallback_rewrite original
  | some raw_text =>
    match _extract_json raw_text with
    | .error _ => _simple_fallback_rewrite original
    | .ok parsed => validate_parsed original parsed

/-- The three internal rejection reasons of the pipeline (spec §7). -/
inductive RejectReason where
  | invalidJson : RejectReason
  | badSchema : RejectReason
  | drift : RejectReason
deriving DecidableEq, Repr

/-- Which rejection reason, if any, the pipeline takes on raw model
output `raw_text` (`none`: accepted, or an uncaught exception).  Stated
with the kernel-computable `driftFlag`; `too_much_drift_eq_flag` ties it
to the drift test of the source. -/
def rejectionReason (original raw_text : String) : Option RejectReason :=
  match _extract_json raw_text with
  | .error _ => some .invalidJson
  | .ok parsed =>
    match schemaStage parsed with
    | .error _ => none
    | .ok false => some .badSchema
    | .ok true =>
      match pyIndex parsed "standard" with
      | .ok (.str std) =>
        if driftFlag original (pyStrip std) then some .drift else none
      | _ => none

/-! ## Lemmas about the tokeniser -/

theorem takeRun_fst_word (cs : List Char) :
    ∀ c ∈ (takeRun cs).1, isWordChar c = true := by
  induction cs with
  | nil => intro c hc; simp [takeRun] at hc
  | cons a t ih =>
    intro c hc
    by_cases ha : isWordChar a
    · simp only [takeRun, if_pos ha] at hc
      rcases List.mem_cons.mp hc with h | h
      · exact h ▸ ha
      · exact ih c h
    · simp [takeRun, ha] at hc

theorem wordRuns_word :
    ∀ (fuel : Nat) (cs : List Char) (r : List Char), r ∈ wordRuns fuel cs →
      ∀ c ∈ r, isWordChar c = true := by
  intro fuel
  induction fuel with
  | zero => intro cs r hr; simp [wordRuns] at hr
  | succ f ih =>
    intro cs r hr
    match cs with
    | [] => simp [wordRuns] at hr
    | a :: t =>
      by_cases ha : isWordChar a
      · simp only [wordRuns, if_pos ha] at hr
        rcases List.mem_cons.mp hr with h | h
        · subst h
          intro c hc
          rcases List.mem_cons.mp hc with h | h
          · exact h ▸ ha
          · exact takeRun_fst_word t c h
        · exact ih _ _ h
      · simp only [wordRuns, if_neg ha] at hr
        exact ih _ _ hr

theorem findallWords_word (s : String) (w : String) (hw : w ∈ findallWords s) :
    ∀ c ∈ w.data, isWordChar c = true := by
  rcases List.mem_map.mp hw with ⟨r, hr, hmk⟩
  intro c hc
  exact wordRuns_word _ _ r hr c (by subst hmk; exact hc)

theorem findallWords_no_colon (s : String) (w : String)
    (hw : w ∈ findallWords s) : ':' ∉ w.data := by
  intro hc
  have := findallWords_word s w hw ':' hc
  simp [isWordChar] at this

/-- The stopword set with the entry `"re:"` removed — the comparison set
for the refinement claim that `"re:"` is unreachable. -/
def STOPWORDS_reduced : List String :=
  ["the", "a", "an", "and", "or", "but", "of", "to", "in", "on", "for", "with",
   "by", "at", "from", "as", "is", "are", "was", "were", "be", "been", "being",
   "this", "that", "these", "those", "it", "its", "into", "about",
   "regarding", "related", "re"]

/-- Tokenisation against the reduced stopword set. -/
def tokenize_reduced (text : String) : List String :=
  (findallWords (pyLower text)).filter (fun w => !STOPWORDS_reduced.contains w)

theorem stopwords_append : STOPWORDS = STOPWORDS_reduced ++ ["re:"] := rfl

theorem stopwords_contains_eq (w : String) (hne : w ≠ "re:") :
    STOPWORDS.contains w = STOPWORDS_reduced.contains w := by
  rw [stopwords_append]
  simp [hne]

theorem tokenize_eq_reduced (s : String) : _tokenize s = tokenize_reduced s := by
  unfold _tokenize tokenize_reduced
  apply List.filter_congr
  intro w hw
  have hne : w ≠ "re:" := by
    intro he
    apply findallWords_no_colon (pyLower s) w hw
    rw [he]
    decide
  rw [stopwords_contains_eq w hne]

/-- C10: the stopword entry `"re:"` is unreachable — a token is a maximal
run of word characters, so no token contains a colon, and tokenisation
with the stopword set as given coincides with tokenisation with `"re:"`
removed from the set, on every input. -/
theorem c10_re_colon_stopword_unreachable :
    (∀ s w, w ∈ findallWords (pyLower s) → ':' ∉ w.data) ∧
    ∀ s, _tokenize s = tokenize_reduced s :=
  ⟨fun s w hw => findallWords_no_colon (pyLower s) w hw, tokenize_eq_reduced⟩

/-- Witness for C10 at a concrete input containing `re:`. -/
theorem c10_witness :
    ("hearing" ∈ findallWords (pyLower "Re: court hearing") ∧ ':' ∉ "hearing".data)
      ∧ _tokenize "Re: court hearing" = tokenize_reduced "Re: court hearing" :=
  ⟨⟨by decide,
    c10_re_colon_stopword_unreachable.1 "Re: court hearing" "hearing" (by decide)⟩,
   c10_re_colon_stopword_unreachable.2 "Re: court hearing"⟩

/-! ## Lemmas about the drift check -/

theorem mem_missingTokens (o r t : String) :
    t ∈ missingTokens o r ↔ t ∈ tokenSet o ∧ t ∉ _tokenize r := by
  simp [missingTokens, List.mem_filter]

theorem tokenSet_not_empty_of_mem {o t : String} (h : t ∈ tokenSet o) :
    ¬ (tokenSet o).isEmpty = true := by
  intro he
  rw [List.isEmpty_iff] at he
  rw [he] at h
  simp at h

/-- C2: a must-preserve token present in the token set of the original and
absent from the tokens of the rewrite forces a drift flag, no matter how high
the overlap ratio is. -/
theorem c2_must_preserve_override (o r t : String)
    (hmp : t ∈ MUST_PRESERVE_TOKENS) (ho : t ∈ tokenSet o)
    (hr : t ∉ _tokenize r) : _too_much_drift o r = true := by
  have hmiss : t ∈ missingTokens o r := (mem_missingTokens o r t).mpr ⟨ho, hr⟩
  unfold _too_much_drift
  rw [if_neg (tokenSet_not_empty_of_mem ho)]
  by_cases hlt : driftOverlap o r < DRIFT_MIN_OVERLAP
  · rw [if_pos hlt]
  · rw [if_neg hlt, if_pos]
    apply List.any_eq_true.mpr
    refine ⟨t, ho, ?_⟩
    simp [hmp, hmiss]

/-- Witness for C2: an original holding the flagged token `farts` plus 9
other distinct non-stopword tokens, whose rewrite drops only the flagged
token; the overlap ratio is 0.90, yet drift is flagged. -/
theorem c2_witness :
    ("farts" ∈ MUST_PRESERVE_TOKENS
      ∧ "farts" ∈ tokenSet "farts alpha bravo charlie delta echo foxtrot golf hotel india"
      ∧ "farts" ∉ _tokenize "alpha bravo charlie delta echo foxtrot golf hotel india")
    ∧ driftOverlap "farts alpha bravo charlie delta echo foxtrot golf hotel india"
        "alpha bravo charlie delta echo foxtrot golf hotel india" = 0.90
    ∧ _too_much_drift "farts alpha bravo charlie delta echo foxtrot golf hotel india"
        "alpha bravo charlie delta echo foxtrot golf hotel india" = true := by
  refine ⟨⟨by decide, by decide, by decide⟩, ?_, ?_⟩
  · have h1 : (missingTokens "farts alpha bravo charlie delta echo foxtrot golf hotel india"
        "alpha bravo charlie delta echo foxtrot golf hotel india").length = 1 := by decide
    have h2 : (tokenSet "farts alpha bravo charlie delta echo foxtrot golf hotel india").length = 10 := by
      decide
    rw [driftOverlap, h1, h2]
    norm_num
  · exact c2_must_preserve_override _ _ "farts" (by decide) (by decide) (by decide)

/-- C3: absent a must-preserve violation, the drift flag is raised exactly
when the overlap ratio is strictly below `DRIFT_MIN_OVERLAP = 0.30`; the
boundary itself is accepted. -/
theorem c3_threshold_exclusive (o r : String)
    (hne : ¬ (tokenSet o).isEmpty = true)
    (hmp : ∀ t ∈ tokenSet o, t ∈ MUST_PRESERVE_TOKENS → t ∉ missingTokens o r) :
    (_too_much_drift o r = true ↔ driftOverlap o r < DRIFT_MIN_OVERLAP) := by
  have hany : ((tokenSet o).any
      (fun t => MUST_PRESERVE_TOKENS.contains t
        && (missingTokens o r).contains t)) = false := by
    rcases h : (tokenSet o).any
        (fun t => MUST_PRESERVE_TOKENS.contains t
          && (missingTokens o r).contains t) with _ | _
    · rfl
    · exfalso
      obtain ⟨t, hto, hcond⟩ := List.any_eq_true.mp h
      rw [Bool.and_eq_true] at hcond
      obtain ⟨h1, h2⟩ := hcond
      exact hmp t hto (by simpa using h1) (by simpa using h2)
  unfold _too_much_drift
  rw [if_neg hne]
  by_cases hlt : driftOverlap o r < DRIFT_MIN_OVERLAP
  · rw [if_pos hlt]
    simp [hlt]
  · rw [if_neg hlt, hany]
    simp [hlt]

/-- Witness for C3: an original with exactly 10 distinct non-stopword
tokens and no must-preserve token; a rewrite missing exactly 7 of them
(overlap ratio exactly 0.30) is not flagged, while a rewrite missing 8
(overlap ratio 0.20) is flagged. -/
theorem c3_witness :
    (¬ (tokenSet "alpha bravo charlie delta echo foxtrot golf hotel india juliet").isEmpty = true
      ∧ (∀ t ∈ tokenSet "alpha bravo charlie delta echo foxtrot golf hotel india juliet",
           t ∈ MUST_PRESERVE_TOKENS
             → t ∉ missingTokens "alpha bravo charlie delta echo foxtrot golf hotel india juliet"
                 "alpha bravo charlie"))
    ∧ (_too_much_drift "alpha bravo charlie delta echo foxtrot golf hotel india juliet"
        "alpha bravo charlie" = true
        ↔ driftOverlap "alpha bravo charlie delta echo foxtrot golf hotel india juliet"
            "alpha bravo charlie" < DRIFT_MIN_OVERLAP)
    ∧ driftOverlap "alpha bravo charlie delta echo foxtrot golf hotel india juliet"
        "alpha bravo charlie" = 0.30
    ∧ _too_much_drift "alpha bravo charlie delta echo foxtrot golf hotel india juliet"
        "alpha bravo charlie" = false
    ∧ driftOverlap "alpha bravo charlie delta echo foxtrot golf hotel india juliet"
        "alpha bravo" = 0.20
    ∧ _too_much_drift "alpha bravo charlie delta echo foxtrot golf hotel india juliet"
        "alpha bravo" = true := by
  have h10 : (tokenSet "alpha bravo charlie delta echo foxtrot golf hotel india juliet").length = 10 := by
    decide
  have h7 : (missingTokens "alpha bravo charlie delta echo foxtrot golf hotel india juliet"
      "alpha bravo charlie").length = 7 := by decide
  have h8 : (missingTokens "alpha bravo charlie delta echo foxtrot golf hotel india juliet"
      "alpha bravo").length = 8 := by decide
  refine ⟨⟨by decide, by decide⟩,
    c3_threshold_exclusive _ _ (by decide) (by decide), ?_, ?_, ?_, ?_⟩
  · rw [driftOverlap, h7, h10]; norm_num
  · rw [too_much_drift_eq_flag]; decide
  · rw [driftOverlap, h8, h10]; norm_num
  · rw [too_much_drift_eq_flag]; decide

/-- C4: an original whose filtered token set is empty — in particular the
empty string — is never flagged, whatever the rewrite. -/
theorem c4_empty_original_never_flagged :
    (∀ r, _too_much_drift "" r = false) ∧
    ∀ o r, (tokenSet o).isEmpty = true → _too_much_drift o r = false := by
  constructor
  · intro r
    rfl
  · intro o r h
    unfold _too_much_drift
    rw [if_pos h]

/-- Witness for C4 at an original made only of stopwords and punctuation. -/
theorem c4_witness :
    (tokenSet "  The of, to... re: ").isEmpty = true
      ∧ _too_much_drift "  The of, to... re: " "entirely unrelated text" = false :=
  ⟨by decide,
   c4_empty_original_never_flagged.2 "  The of, to... re: " "entirely unrelated text" (by decide)⟩

/-! ## Lemmas about the fallback composer -/

theorem pyUpperChar_eq_self (c : Char) (h : ∀ l ∈ "abcdefghijklmnopqrstuvwxyz".data, c ≠ l) :
    pyUpperChar c = c := by
  unfold pyUpperChar
  rw [if_neg (h 'a' (by decide))]
  rw [if_neg (h 'b' (by decide))]
  rw [if_neg (h 'c' (by decide))]
  rw [if_neg (h 'd' (by decide))]
  rw [if_neg (h 'e' (by decide))]
  rw [if_neg (h 'f' (by decide))]
  rw [if_neg (h 'g' (by decide))]
  rw [if_neg (h 'h' (by decide))]
  rw [if_neg (h 'i' (by decide))]
  rw [if_neg (h 'j' (by decide))]
  rw [if_neg (h 'k' (by decide))]
  rw [if_neg (h 'l' (by decide))]
  rw [if_neg (h 'm' (by decide))]
  rw [if_neg (h 'n' (by decide))]
  rw [if_neg (h 'o' (by decide))]
  rw [if_neg (h 'p' (by decide))]
  rw [if_neg (h 'q' (by decide))]
  rw [if_neg (h 'r' (by decide))]
  rw [if_neg (h 's' (by decide))]
  rw [if_neg (h 't' (by decide))]
  rw [if_neg (h 'u' (by decide))]
  rw [if_neg (h 'v' (by decide))]
  rw [if_neg (h 'w' (by decide))]
  rw [if_neg (h 'x' (by decide))]
  rw [if_neg (h 'y' (by decide))]
  rw [if_neg (h 'z' (by decide))]

theorem pyUpperChar_idem (c : Char) : pyUpperChar (pyUpperChar c) = pyUpperChar c := by
  by_cases h : ∀ l ∈ "abcdefghijklmnopqrstuvwxyz".data, c ≠ l
  · rw [pyUpperChar_eq_self c h, pyUpperChar_eq_self c h]
  · push_neg at h
    obtain ⟨l, hl, he⟩ := h
    subst he
    fin_cases hl <;> rfl

theorem pyUpperChar_space (c : Char) : pyIsSpace (pyUpperChar c) = pyIsSpace c := by
  by_cases h : ∀ l ∈ "abcdefghijklmnopqrstuvwxyz".data, c ≠ l
  · rw [pyUpperChar_eq_self c h]
  · push_neg at h
    obtain ⟨l, hl, he⟩ := h
    subst he
    fin_cases hl <;> rfl


theorem dropWhile_head_false (p : Char → Bool) :
    ∀ (l : List Char) (c : Char) (cs : List Char),
      l.dropWhile p = c :: cs → p c = false := by
  intro l
  induction l with
  | nil => intro c cs h; simp [List.dropWhile] at h
  | cons a t ih =>
    intro c cs h
    by_cases ha : p a
    · rw [List.dropWhile_cons_of_pos ha] at h
      exact ih c cs h
    · rw [List.dropWhile_cons_of_neg ha] at h
      cases h
      simpa using ha

theorem dropWhile_eq_self_of_head (p : Char → Bool) (l : List Char)
    (h : ∀ c cs, l = c :: cs → p c = false) : l.dropWhile p = l := by
  cases l with
  | nil => rfl
  | cons a t => exact List.dropWhile_cons_of_neg (by simp [h a t rfl])

theorem dropTrailing_eq_self (p : Char → Bool) (l : List Char) (d : Char)
    (hlast : l.getLast? = some d) (hd : p d = false) :
    dropTrailing p l = l := by
  unfold dropTrailing
  have hrev : l.reverse.dropWhile p = l.reverse := by
    apply dropWhile_eq_self_of_head
    intro c cs hc
    have : l.reverse.head? = some c := by rw [hc]; rfl
    rw [List.head?_reverse] at this
    rw [hlast] at this
    cases this
    exact hd
  rw [hrev, List.reverse_reverse]

theorem dropTrailing_prefix_self (p : Char → Bool) (l : List Char) :
    dropTrailing p l <+: l := by
  unfold dropTrailing
  have h1 : l.reverse.dropWhile p <:+ l.reverse := List.dropWhile_suffix p
  have := List.reverse_prefix.mpr h1
  simpa using this

theorem pyStrip_head_not_space (s : String) (c : Char) (cs : List Char)
    (h : (pyStrip s).data = c :: cs) : pyIsSpace c = false := by
  have hpre : (pyStrip s).data <+: s.data.dropWhile pyIsSpace := by
    have : (pyStrip s).data = dropTrailing pyIsSpace (s.data.dropWhile pyIsSpace) := rfl
    rw [this]
    exact dropTrailing_prefix_self _ _
  rw [h] at hpre
  obtain ⟨t, ht⟩ := hpre
  exact dropWhile_head_false pyIsSpace s.data c (cs ++ t) (by rw [← ht]; rfl)

theorem pyStrip_last_not_space (s : String) (d : Char)
    (h : (pyStrip s).data.getLast? = some d) : pyIsSpace d = false := by
  have hdata : (pyStrip s).data = (( s.data.dropWhile pyIsSpace).reverse.dropWhile pyIsSpace).reverse := rfl
  rw [hdata, List.getLast?_reverse] at h
  rcases hh : (s.data.dropWhile pyIsSpace).reverse.dropWhile pyIsSpace with _ | ⟨c, cs⟩
  · rw [hh] at h; cases h
  · rw [hh] at h
    cases h
    exact dropWhile_head_false pyIsSpace _ _ _ hh

/-- The cleaning applied by the fallback, as the spec describes it
(§4.4): first character upper-cased, terminating period appended when
missing; the empty string is left unchanged (the fallback never reaches
it on an empty string, the default phrase having been substituted). -/
def capDot (s : String) : String :=
  match s.data with
  | [] => s
  | c :: cs =>
    let capped : String := ⟨pyUpperChar c :: cs⟩
    if pyEndsWith capped "." then capped else capped ++ "."

/-- The minimally-cleaned text the fallback produces, as the spec
describes it: the default phrase for an (after trimming) empty original,
otherwise the trimmed original cleaned by `capDot`. -/
def cleanedText (original : String) : String :=
  if (pyStrip original).data.isEmpty then defaultPhrase
  else capDot (pyStrip original)

theorem fallbackText_ok (o : String) : fallbackText o = .ok (cleanedText o) := by
  unfold fallbackText cleanedText capDot
  by_cases h : (pyStrip o).data.isEmpty
  · rw [if_pos h, if_pos h]
    rfl
  · rw [if_neg h, if_neg h]
    rcases hcs : (pyStrip o).data with _ | ⟨c, cs⟩
    · rw [hcs] at h; simp at h
    · simp only [hcs]

theorem fallback_ok (o : String) :
    _simple_fallback_rewrite o =
      .ok { standard := cleanedText o, client_compliant := cleanedText o,
            audit_safe := cleanedText o, notes := fallbackNote } := by
  unfold _simple_fallback_rewrite
  rw [fallbackText_ok]

theorem cleanedText_shape (o : String) :
    ∃ c cs, (cleanedText o).data = c :: cs ∧ pyIsSpace c = false
      ∧ pyUpperChar c = c ∧ (cleanedText o).data.getLast? = some '.' := by
  unfold cleanedText
  by_cases h : (pyStrip o).data.isEmpty
  · rw [if_pos h]
    exact ⟨'P', defaultPhrase.data.tail, by decide, by decide, by decide, by decide⟩
  · rw [if_neg h]
    rcases hcs : (pyStrip o).data with _ | ⟨c0, cs0⟩
    · rw [hcs] at h; simp at h
    · have hsp : pyIsSpace c0 = false := pyStrip_head_not_space o c0 cs0 hcs
      simp only [capDot, hcs]
      by_cases hend : pyEndsWith (⟨pyUpperChar c0 :: cs0⟩ : String) "."
      · rw [if_pos hend]
        refine ⟨pyUpperChar c0, cs0, rfl, ?_, pyUpperChar_idem c0, ?_⟩
        · rw [pyUpperChar_space, hsp]
        · have hsuf : ['.'] <:+ (pyUpperChar c0 :: cs0) := by
            have := List.isSuffixOf_iff_suffix.mp hend
            simpa using this
          obtain ⟨t, ht⟩ := hsuf
          show (pyUpperChar c0 :: cs0).getLast? = some '.'
          rw [← ht, List.getLast?_concat]
      · rw [if_neg hend]
        refine ⟨pyUpperChar c0, cs0 ++ ['.'], rfl, ?_, pyUpperChar_idem c0, ?_⟩
        · rw [pyUpperChar_space, hsp]
        · show (pyUpperChar c0 :: (cs0 ++ ['.'])).getLast? = some '.'
          rw [show pyUpperChar c0 :: (cs0 ++ ['.']) = (pyUpperChar c0 :: cs0) ++ ['.'] from rfl,
            List.getLast?_concat]

theorem fallback_fix (t : String)
    (hd : ∀ c cs, t.data = c :: cs → pyIsSpace c = false ∧ pyUpperChar c = c)
    (hne : t.data ≠ [])
    (hlast : t.data.getLast? = some '.') :
    _simple_fallback_rewrite t =
      .ok { standard := t, client_compliant := t, audit_safe := t,
            notes := fallbackNote } := by
  have hstrip : pyStrip t = t := by
    have h1 : t.data.dropWhile pyIsSpace = t.data :=
      dropWhile_eq_self_of_head _ _ (fun c cs h => (hd c cs h).1)
    have h2 : dropTrailing pyIsSpace t.data = t.data :=
      dropTrailing_eq_self _ _ '.' hlast (by decide)
    show (⟨dropTrailing pyIsSpace (t.data.dropWhile pyIsSpace)⟩ : String) = t
    rw [h1, h2]
  have hemp : t.data.isEmpty = false := by
    rcases ht : t.data with _ | ⟨c, cs⟩
    · exact absurd ht hne
    · rfl
  unfold _simple_fallback_rewrite fallbackText
  simp only [hstrip, hemp, Bool.false_eq_true, if_false]
  rcases ht : t.data with _ | ⟨c, cs⟩
  · exact absurd ht hne
  · simp only [ht]
    have hcap : (⟨pyUpperChar c :: cs⟩ : String) = t := by
      rw [(hd c cs ht).2]
      conv_rhs => rw [show t = (⟨t.data⟩ : String) from rfl, ht]
    rw [hcap]
    have hend : pyEndsWith t "." = true := by
      unfold pyEndsWith
      apply List.isSuffixOf_iff_suffix.mpr
      show ['.'] <:+ t.data
      exact ⟨t.data.dropLast, List.dropLast_append_getLast? '.' hlast⟩
    rw [if_pos hend]

/-- C6: `simple_fallback_rewrite` never fails, and returns the three
rewrite fields all equal to one minimally-cleaned text — the fixed
default phrase when the trimmed original is empty, otherwise the trimmed
original with its first character upper-cased and a terminating period
appended when missing — with the fixed explanatory note. -/
theorem c6_fallback_shape (original : String) :
    (_simple_fallback_rewrite original =
      .ok { standard := cleanedText original, client_compliant := cleanedText original,
            audit_safe := cleanedText original, notes := fallbackNote })
    ∧ cleanedText "" = "Performed legal services."
    ∧ cleanedText "reviewed contract" = "Reviewed contract."
    ∧ cleanedText "Emailed client." = "Emailed client." :=
  ⟨fallback_ok original, by decide, by decide, by decide⟩

/-- C9: the fallback cleaning is idempotent — feeding the `standard`
field of a fallback result back into the fallback reproduces the result
exactly. -/
theorem c9_fallback_idempotent (s : String) (r : RewriteResponse)
    (h : _simple_fallback_rewrite s = .ok r) :
    _simple_fallback_rewrite r.standard = .ok r := by
  rw [fallback_ok] at h
  injection h with h1
  subst h1
  obtain ⟨c, cs, hdata, hsp, hfix, hlast⟩ := cleanedText_shape s
  apply fallback_fix
  · intro c2 cs2 h2
    rw [hdata] at h2
    injection h2 with e1 e2
    subst e1
    exact ⟨hsp, hfix⟩
  · rw [hdata]; simp
  · exact hlast

/-- Witness for C9 at a concrete original. -/
theorem c9_witness :
    _simple_fallback_rewrite "hello world" =
      .ok { standard := "Hello world.", client_compliant := "Hello world.",
            audit_safe := "Hello world.", notes := fallbackNote }
    ∧ _simple_fallback_rewrite "Hello world." =
      .ok { standard := "Hello world.", client_compliant := "Hello world.",
            audit_safe := "Hello world.", notes := fallbackNote } :=
  ⟨rfl, c9_fallback_idempotent "hello world"
    { standard := "Hello world.", client_compliant := "Hello world.",
      audit_safe := "Hello world.", notes := fallbackNote } rfl⟩

/-! ## Lemmas about `_extract_json` -/

theorem extract_ok_whole (text : String) (v : PyVal)
    (h : json_loads (pyStrip text) = .ok v) : _extract_json text = .ok v := by
  unfold _extract_json
  simp only [h]

theorem extract_on_error (text e : String)
    (h : json_loads (pyStrip text) = .error e) :
    _extract_json text =
      (match sliceCandidate (pyStrip text) with
       | some snippet => json_loads snippet
       | none => .error "Could not parse JSON from model output") := by
  unfold _extract_json
  simp only [h]

/-- C7: `_extract_json` first parses the whole trimmed text; when that
fails it parses the first-`\x7b`-to-last-`\x7d` slice; it fails exactly
when neither attempt yields a value — so JSON wrapped in prose on either
side is extracted. -/
theorem c7_extract_json_two_stage :
    (∀ text v, json_loads (pyStrip text) = .ok v → _extract_json text = .ok v)
    ∧ (∀ text e snippet, json_loads (pyStrip text) = .error e →
        sliceCandidate (pyStrip text) = some snippet →
        _extract_json text = json_loads snippet)
    ∧ (∀ text, (∃ v, _extract_json text = .ok v) ↔
        ((∃ v, json_loads (pyStrip text) = .ok v)
          ∨ (∃ snippet v, sliceCandidate (pyStrip text) = some snippet
              ∧ json_loads snippet = .ok v))) := by
  refine ⟨extract_ok_whole, ?_, ?_⟩
  · intro text e snippet hjl hsc
    rw [extract_on_error text e hjl, hsc]
  · intro text
    rcases hjl : json_loads (pyStrip text) with e | v
    case ok =>
      constructor
      · intro _
        exact Or.inl ⟨v, rfl⟩
      · intro _
        exact ⟨v, extract_ok_whole text v hjl⟩
    case error =>
      rw [extract_on_error text e hjl]
      rcases hsc : sliceCandidate (pyStrip text) with _ | snip
      · constructor
        · rintro ⟨v, hv⟩
          simp at hv
        · rintro (⟨v, hv⟩ | ⟨snip, v, hs, hv⟩)
          · cases hv
          · cases hs
      · constructor
        · rintro ⟨v, hv⟩
          exact Or.inr ⟨snip, v, rfl, hv⟩
        · rintro (⟨v, hv⟩ | ⟨snip2, v, hs2, hv⟩)
          · cases hv
          · cases hs2
            exact ⟨v, hv⟩

/-- Witness for C7: the prose-wrapped example of the spec — the whole-text
parse fails, the slice between the braces parses, and the embedded
object is extracted. -/
theorem c7_witness :
    json_loads (pyStrip "Here is the result:\n\x7b\"standard\":\"x\",\"client_compliant\":\"y\",\"audit_safe\":\"z\",\"notes\":\"n\"\x7d\nHope this helps!")
        = .error "Expecting value"
    ∧ sliceCandidate (pyStrip "Here is the result:\n\x7b\"standard\":\"x\",\"client_compliant\":\"y\",\"audit_safe\":\"z\",\"notes\":\"n\"\x7d\nHope this helps!")
        = some "\x7b\"standard\":\"x\",\"client_compliant\":\"y\",\"audit_safe\":\"z\",\"notes\":\"n\"\x7d"
    ∧ _extract_json "Here is the result:\n\x7b\"standard\":\"x\",\"client_compliant\":\"y\",\"audit_safe\":\"z\",\"notes\":\"n\"\x7d\nHope this helps!"
        = json_loads "\x7b\"standard\":\"x\",\"client_compliant\":\"y\",\"audit_safe\":\"z\",\"notes\":\"n\"\x7d"
    ∧ json_loads "\x7b\"standard\":\"x\",\"client_compliant\":\"y\",\"audit_safe\":\"z\",\"notes\":\"n\"\x7d"
        = .ok (.dict [("standard", .str "x"), ("client_compliant", .str "y"),
                      ("audit_safe", .str "z"), ("notes", .str "n")]) :=
  ⟨rfl, rfl,
   c7_extract_json_two_stage.2.1
     "Here is the result:\n\x7b\"standard\":\"x\",\"client_compliant\":\"y\",\"audit_safe\":\"z\",\"notes\":\"n\"\x7d\nHope this helps!"
     "Expecting value"
     "\x7b\"standard\":\"x\",\"client_compliant\":\"y\",\"audit_safe\":\"z\",\"notes\":\"n\"\x7d"
     rfl rfl,
   rfl⟩

/-! ## Lemmas about the schema stage and the orchestrator -/

theorem any_iff_lookupLast (kvs : List (String × PyVal)) (k : String) :
    kvs.any (fun p => p.1 == k) = true ↔ ∃ x, lookupLast kvs k = some x := by
  constructor
  · intro h
    obtain ⟨pr, hmem, hpk⟩ := List.any_eq_true.mp h
    have hf : pr ∈ kvs.filter (fun p => p.1 == k) := List.mem_filter.mpr ⟨hmem, hpk⟩
    rcases hg : (kvs.filter (fun p => p.1 == k)).getLast? with _ | x
    · rw [List.getLast?_eq_none_iff] at hg
      rw [hg] at hf
      simp at hf
    · exact ⟨x.2, by unfold lookupLast; rw [hg]; rfl⟩
  · rintro ⟨x, hx⟩
    unfold lookupLast at hx
    rcases hg : (kvs.filter (fun p => p.1 == k)).getLast? with _ | pr
    · rw [hg] at hx; cases hx
    · have hmem := List.mem_of_mem_getLast? hg
      have hm := List.mem_filter.mp hmem
      exact List.any_eq_true.mpr ⟨pr, hm.1, hm.2⟩

theorem schemaKeyOk_dict_of_lookup (kvs : List (String × PyVal)) (k : String)
    (x : PyVal) (h : lookupLast kvs k = some x) :
    schemaKeyOk (.dict kvs) k = .ok (isStr x) := by
  have hany : kvs.any (fun p => p.1 == k) = true :=
    (any_iff_lookupLast kvs k).mpr ⟨x, h⟩
  unfold schemaKeyOk pyContains pyIndex
  simp only [hany, h]

theorem schemaStage_dict_ok (kvs : List (String × PyVal))
    (std cc aud : String)
    (h1 : lookupLast kvs "standard" = some (.str std))
    (h2 : lookupLast kvs "client_compliant" = some (.str cc))
    (h3 : lookupLast kvs "audit_safe" = some (.str aud)) :
    schemaStage (.dict kvs) = .ok true := by
  unfold schemaStage
  rw [schemaKeyOk_dict_of_lookup kvs "standard" _ h1,
    schemaKeyOk_dict_of_lookup kvs "client_compliant" _ h2,
    schemaKeyOk_dict_of_lookup kvs "audit_safe" _ h3]
  rfl

theorem schemaKeyOk_dict_inv (kvs : List (String × PyVal)) (k : String)
    (h : schemaKeyOk (.dict kvs) k = .ok true) :
    ∃ s, lookupLast kvs k = some (.str s) := by
  rcases hany : kvs.any (fun p => p.1 == k) with _ | _
  · unfold schemaKeyOk pyContains at h
    simp only [hany] at h
    cases h
  · obtain ⟨x, hx⟩ := (any_iff_lookupLast kvs k).mp hany
    rw [schemaKeyOk_dict_of_lookup kvs k x hx] at h
    injection h with hb
    cases x with
    | str s => exact ⟨s, hx⟩
    | num q => cases hb
    | bool b => cases hb
    | null => cases hb
    | list l => cases hb
    | dict d => cases hb

theorem schemaStage_ok_true_dict (p : PyVal) (h : schemaStage p = .ok true) :
    ∃ kvs, p = .dict kvs := by
  cases p with
  | dict kvs => exact ⟨kvs, rfl⟩
  | str s =>
    exfalso
    rcases hb : listHasInfix s.data "standard".data with _ | _ <;>
      simp [schemaStage, schemaKeyOk, pyContains, pyIndex, hb] at h
  | list xs =>
    exfalso
    rcases hb : xs.any (fun x => match x with | .str t => t == "standard" | _ => false)
        with _ | _ <;>
      simp [schemaStage, schemaKeyOk, pyContains, pyIndex, hb] at h
  | num q => simp [schemaStage, schemaKeyOk, pyContains] at h
  | bool b => simp [schemaStage, schemaKeyOk, pyContains] at h
  | null => simp [schemaStage, schemaKeyOk, pyContains] at h

theorem schemaStage_dict_inv (kvs : List (String × PyVal))
    (h : schemaStage (.dict kvs) = .ok true) :
    ∃ std cc aud : String,
      lookupLast kvs "standard" = some (.str std)
      ∧ lookupLast kvs "client_compliant" = some (.str cc)
      ∧ lookupLast kvs "audit_safe" = some (.str aud) := by
  unfold schemaStage at h
  rcases hk1 : schemaKeyOk (.dict kvs) "standard" with e | b1
  · rw [hk1] at h; cases h
  · rw [hk1] at h
    cases b1 with
    | false => cases h
    | true =>
      obtain ⟨std, h1⟩ := schemaKeyOk_dict_inv kvs "standard" hk1
      rcases hk2 : schemaKeyOk (.dict kvs) "client_compliant" with e | b2
      · rw [hk2] at h; cases h
      · rw [hk2] at h
        cases b2 with
        | false => cases h
        | true =>
          obtain ⟨cc, h2⟩ := schemaKeyOk_dict_inv kvs "client_compliant" hk2
          obtain ⟨aud, h3⟩ := schemaKeyOk_dict_inv kvs "audit_safe" h
          exact ⟨std, cc, aud, h1, h2, h3⟩

theorem validate_parsed_dict (o : String) (kvs : List (String × PyVal))
    (std cc aud : String)
    (h1 : lookupLast kvs "standard" = some (.str std))
    (h2 : lookupLast kvs "client_compliant" = some (.str cc))
    (h3 : lookupLast kvs "audit_safe" = some (.str aud)) :
    validate_parsed o (.dict kvs) =
      if _too_much_drift o (pyStrip std) then
        _simple_fallback_rewrite o
      else
        .ok { standard := pyStrip std, client_compliant := pyStrip cc,
              audit_safe := pyStrip aud,
              notes := pyStrip (pyStr ((lookupLast kvs "notes").getD (.str ""))) } := by
  unfold validate_parsed
  rw [schemaStage_dict_ok kvs std cc aud h1 h2 h3]
  unfold pyGetDefault pyIndex
  simp only [h1, h2, h3]

/-- C5: the drift stage looks only at the `standard` field — two parsed
candidates that pass the schema stage and share the same `standard`
value share the drift decision: either both are rejected to the exact
fallback result, or both are accepted, the accepted results carrying the
same (trimmed) `standard`. -/
theorem c5_drift_checks_standard_only (o : String) (p1 p2 : PyVal)
    (h1 : schemaStage p1 = .ok true) (h2 : schemaStage p2 = .ok true)
    (hstd : pyIndex p1 "standard" = pyIndex p2 "standard") :
    ∃ std, pyIndex p1 "standard" = .ok (.str std)
      ∧ pyIndex p2 "standard" = .ok (.str std)
      ∧ ((_too_much_drift o (pyStrip std) = true
            ∧ validate_parsed o p1 = _simple_fallback_rewrite o
            ∧ validate_parsed o p2 = _simple_fallback_rewrite o)
        ∨ (_too_much_drift o (pyStrip std) = false
            ∧ ∃ v1 v2, validate_parsed o p1 = .ok v1 ∧ validate_parsed o p2 = .ok v2
                ∧ v1.standard = pyStrip std ∧ v2.standard = pyStrip std)) := by
  obtain ⟨kvs1, hp1⟩ := schemaStage_ok_true_dict p1 h1
  obtain ⟨kvs2, hp2⟩ := schemaStage_ok_true_dict p2 h2
  subst hp1
  subst hp2
  obtain ⟨std1, cc1, aud1, ha1, hb1, hc1⟩ := schemaStage_dict_inv kvs1 h1
  obtain ⟨std2, cc2, aud2, ha2, hb2, hc2⟩ := schemaStage_dict_inv kvs2 h2
  have hi1 : pyIndex (.dict kvs1) "standard" = .ok (.str std1) := by
    simp [pyIndex, ha1]
  have hi2 : pyIndex (.dict kvs2) "standard" = .ok (.str std2) := by
    simp [pyIndex, ha2]
  have heq : std1 = std2 := by
    rw [hi1, hi2] at hstd
    injection hstd with h
    injection h
  subst heq
  refine ⟨std1, hi1, hi2, ?_⟩
  rw [validate_parsed_dict o kvs1 std1 cc1 aud1 ha1 hb1 hc1,
    validate_parsed_dict o kvs2 std1 cc2 aud2 ha2 hb2 hc2]
  by_cases hd : _too_much_drift o (pyStrip std1)
  · rw [if_pos hd, if_pos hd]
    exact Or.inl ⟨hd, rfl, rfl⟩
  · rw [if_neg hd, if_neg hd]
    refine Or.inr ⟨by simpa using hd, ?_⟩
    exact ⟨_, _, rfl, rfl, rfl, rfl⟩

/-- Witness for C5: two parsed candidates with the same `standard` and
different `client_compliant`, `audit_safe` and `notes`. -/
theorem c5_witness :
    schemaStage (.dict [("standard", .str "Reviewed the agreement"),
      ("client_compliant", .str "first variant"),
      ("audit_safe", .str "first audit text")]) = .ok true
    ∧ schemaStage (.dict [("standard", .str "Reviewed the agreement"),
        ("client_compliant", .str "second variant"),
        ("audit_safe", .str "second audit text"),
        ("notes", .str "entirely different notes")]) = .ok true
    ∧ pyIndex (.dict [("standard", .str "Reviewed the agreement"),
        ("client_compliant", .str "first variant"),
        ("audit_safe", .str "first audit text")]) "standard"
      = pyIndex (.dict [("standard", .str "Reviewed the agreement"),
          ("client_compliant", .str "second variant"),
          ("audit_safe", .str "second audit text"),
          ("notes", .str "entirely different notes")]) "standard"
    ∧ ∃ std, pyIndex (.dict [("standard", .str "Reviewed the agreement"),
        ("client_compliant", .str "first variant"),
        ("audit_safe", .str "first audit text")]) "standard" = .ok (.str std)
      ∧ pyIndex (.dict [("standard", .str "Reviewed the agreement"),
          ("client_compliant", .str "second variant"),
          ("audit_safe", .str "second audit text"),
          ("notes", .str "entirely different notes")]) "standard" = .ok (.str std)
      ∧ ((_too_much_drift "reviewed agreement" (pyStrip std) = true
            ∧ validate_parsed "reviewed agreement"
                (.dict [("standard", .str "Reviewed the agreement"),
                  ("client_compliant", .str "first variant"),
                  ("audit_safe", .str "first audit text")])
              = _simple_fallback_rewrite "reviewed agreement"
            ∧ validate_parsed "reviewed agreement"
                (.dict [("standard", .str "Reviewed the agreement"),
                  ("client_compliant", .str "second variant"),
                  ("audit_safe", .str "second audit text"),
                  ("notes", .str "entirely different notes")])
              = _simple_fallback_rewrite "reviewed agreement")
        ∨ (_too_much_drift "reviewed agreement" (pyStrip std) = false
            ∧ ∃ v1 v2, validate_parsed "reviewed agreement"
                (.dict [("standard", .str "Reviewed the agreement"),
                  ("client_compliant", .str "first variant"),
                  ("audit_safe", .str "first audit text")]) = .ok v1
              ∧ validate_parsed "reviewed agreement"
                  (.dict [("standard", .str "Reviewed the agreement"),
                    ("client_compliant", .str "second variant"),
                    ("audit_safe", .str "second audit text"),
                    ("notes", .str "entirely different notes")]) = .ok v2
              ∧ v1.standard = pyStrip std ∧ v2.standard = pyStrip std)) :=
  ⟨rfl, rfl, rfl,
   c5_drift_checks_standard_only "reviewed agreement" _ _ rfl rfl rfl⟩

theorem reason_some_fallback (o raw : String) (x : RejectReason)
    (h : rejectionReason o raw = some x) (hours : ℚ)
    (rules : Option (List (String × PyVal))) :
    call_ollama o hours rules (some raw) = _simple_fallback_rewrite o := by
  unfold call_ollama
  show (match _extract_json raw with
    | .error _ => _simple_fallback_rewrite o
    | .ok parsed => validate_parsed o parsed) = _simple_fallback_rewrite o
  unfold rejectionReason at h
  rcases hej : _extract_json raw with e | parsed
  · rfl
  · rw [hej] at h
    dsimp only at h
    show validate_parsed o parsed = _simple_fallback_rewrite o
    rcases hss : schemaStage parsed with e | b
    · rw [hss] at h; cases h
    · rw [hss] at h
      cases b with
      | false =>
        unfold validate_parsed
        rw [hss]
      | true =>
        dsimp only at h
        obtain ⟨kvs, hkvs⟩ := schemaStage_ok_true_dict parsed hss
        subst hkvs
        obtain ⟨std, cc, aud, h1, h2, h3⟩ := schemaStage_dict_inv kvs hss
        have hi : pyIndex (.dict kvs) "standard" = .ok (.str std) := by
          simp [pyIndex, h1]
        rw [hi] at h
        dsimp only at h
        by_cases hd : driftFlag o (pyStrip std)
        · rw [validate_parsed_dict o kvs std cc aud h1 h2 h3,
            too_much_drift_eq_flag, if_pos hd]
        · rw [if_neg hd] at h
          cases h

/-- C8 counterexample: the claim that two inputs rejected for different
internal reasons can be told apart by the `notes` of the returned result
is false — every rejection returns the same fixed fallback note, so no
such pair of inputs exists. -/
theorem c8_counterexample :
    ¬ ∃ (o r1 r2 : String) (hours1 hours2 : ℚ)
        (rules1 rules2 : Option (List (String × PyVal)))
        (a b : RejectReason) (v1 v2 : RewriteResponse),
      rejectionReason o r1 = some a ∧ rejectionReason o r2 = some b ∧ a ≠ b
      ∧ call_ollama o hours1 rules1 (some r1) = .ok v1
      ∧ call_ollama o hours2 rules2 (some r2) = .ok v2
      ∧ v1.notes ≠ v2.notes := by
  rintro ⟨o, r1, r2, hours1, hours2, rules1, rules2, a, b, v1, v2,
    ha, hb, hab, hc1, hc2, hne⟩
  rw [reason_some_fallback o r1 a ha hours1 rules1, fallback_ok] at hc1
  rw [reason_some_fallback o r2 b hb hours2 rules2, fallback_ok] at hc2
  injection hc1 with hv1
  injection hc2 with hv2
  rw [← hv1, ← hv2] at hne
  exact hne rfl

/-- C8 amended: the three internal rejection reasons are *not*
distinguishable in the returned result — every rejection, whatever its
reason, returns the identical fallback with the one fixed `notes`
message (the external contract is uniform; the reasons exist only
internally). -/
theorem c8_uniform_rejection_notes (o raw : String) (hours : ℚ)
    (rules : Option (List (String × PyVal))) (x : RejectReason)
    (h : rejectionReason o raw = some x) :
    call_ollama o hours rules (some raw) =
      .ok { standard := cleanedText o, client_compliant := cleanedText o,
            audit_safe := cleanedText o, notes := fallbackNote } := by
  rw [reason_some_fallback o raw x h hours rules, fallback_ok]

/-- Witness for the amended C8: a rejection for invalid JSON and a
rejection for drift, both returning the identical fixed note. -/
theorem c8_witness :
    rejectionReason "Drafted the motion" "no json here" = some .invalidJson
    ∧ rejectionReason "Drafted the motion"
        "\x7b\"standard\":\"unrelated words entirely\",\"client_compliant\":\"y\",\"audit_safe\":\"z\"\x7d"
        = some .drift
    ∧ call_ollama "Drafted the motion" 1 none (some "no json here") =
        .ok { standard := "Drafted the motion.",
              client_compliant := "Drafted the motion.",
              audit_safe := "Drafted the motion.", notes := fallbackNote }
    ∧ call_ollama "Drafted the motion" 2 none
        (some "\x7b\"standard\":\"unrelated words entirely\",\"client_compliant\":\"y\",\"audit_safe\":\"z\"\x7d") =
        .ok { standard := "Drafted the motion.",
              client_compliant := "Drafted the motion.",
              audit_safe := "Drafted the motion.", notes := fallbackNote } :=
  ⟨rfl, rfl,
   c8_uniform_rejection_notes "Drafted the motion" "no json here" 1 none
     .invalidJson rfl,
   c8_uniform_rejection_notes "Drafted the motion"
     "\x7b\"standard\":\"unrelated words entirely\",\"client_compliant\":\"y\",\"audit_safe\":\"z\"\x7d"
     2 none .drift rfl⟩

/-! ## C1: the pipeline is not exception-free on every input -/

/-- C1 failing input: the model output `"5"` is valid JSON that is not an
object; `json.loads` returns the integer `5`, and the schema-stage
membership test `"standard" not in parsed` raises an uncaught
`TypeError`, which propagates to the caller instead of the promised
fallback result. -/
theorem c1_typeerror_on_scalar_json :
    (∃ q, _extract_json "5" = .ok (.num q))
    ∧ call_ollama "Reviewed the Smith file" 2 none (some "5") =
        .error "TypeError: argument is not iterable" :=
  ⟨⟨_, rfl⟩, rfl⟩
